import Mathlib

/-!
Verification development for the Stegano repository: a steganography
application whose UI layer (src/src/App.vue) drives a steganographic
codec + authenticated-encryption engine through six fixed operations.
The UI layer is embedded directly from App.vue as a state machine over
the reactive state declared in its script block.  The engine itself is
not part of the available sources, so it is modelled from the
specification (sections 3, 4 and 6 of spec.md): payload framing, key
derivation, AEAD sealing/opening, LSB bit channels and the capacity
formula.  Browser built-ins used by App.vue (TextEncoder, String.trim,
btoa/atob, DataView writes) are modelled from their standard semantics.
-/

set_option maxRecDepth 100000

namespace Stegano

/-! ## Bit-level machinery (engine model)

Modelled from the spec: §4.4 BitChannel — a carrier-agnostic sequence of
writable/readable single bits, one designated LSB per covered carrier
byte; bits of a byte are traversed most-significant first (the traversal
order is the spec's declared free design choice, fixed identically for
encode and decode). -/

/-- Bits of one byte, most-significant bit first. -/
def bitsOfByte (b : Nat) : List Nat :=
  [b / 128 % 2, b / 64 % 2, b / 32 % 2, b / 16 % 2, b / 8 % 2, b / 4 % 2, b / 2 % 2, b % 2]

/-- Reassemble one byte from its eight bits, most-significant first. -/
def byteOfBits8 (a b c d e f g h : Nat) : Nat :=
  a * 128 + b * 64 + c * 32 + d * 16 + e * 8 + f * 4 + g * 2 + h

/-- Serialise a byte sequence into its bit sequence. -/
def bytesToBits : List Nat → List Nat
  | [] => []
  | b :: bs => bitsOfByte b ++ bytesToBits bs

/-- Group a bit sequence back into bytes (dropping any ragged tail). -/
def bitsToBytes : List Nat → List Nat
  | a :: b :: c :: d :: e :: f :: g :: h :: rest => byteOfBits8 a b c d e f g h :: bitsToBytes rest
  | _ => []

/-- Overwrite the least-significant bit of each of the first `bs.length`
carrier bytes with the corresponding bit, leaving the other seven bits of
each byte and all remaining bytes untouched (spec §4.4/§4.5). -/
def writeBits : List Nat → List Nat → List Nat
  | [], l => l
  | _ :: _, [] => []
  | bit :: bs, x :: xs => (x / 2 * 2 + bit) :: writeBits bs xs

/-- Least-significant bits of a byte sequence, in order. -/
def lsbs (l : List Nat) : List Nat := l.map (· % 2)

/-! ## Key derivation, AEAD cipher and payload framing (engine model) -/

/-- Deterministic byte-sequence mixer used as the concrete hash of the
modelled primitives (the spec fixes only determinism and output sizes of
the KDF / AEAD, leaving the exact primitives a free choice). -/
def mix (seed : Nat) (l : List Nat) : Nat :=
  l.foldl (fun a b => a * 131 + b + 1) seed

/-- Modelled from the spec: §4.1 KeyDerivation — a deterministic function
of passphrase and salt producing a 32-byte (256-bit) key; the work factor
of the real KDF is not observable in the model. -/
def derive (pass salt : List Nat) : List Nat :=
  (List.range 32).map (fun i => mix (mix (i + 2) pass) salt % 256)

/-- Keystream byte `i` of the modelled stream cipher, a deterministic
function of key and nonce. -/
def ksByte (key nonce : List Nat) (i : Nat) : Nat :=
  mix (mix i key) nonce % 256

/-- Encrypt bytes with the keystream starting at position `i`. -/
def encBytes (key nonce : List Nat) : Nat → List Nat → List Nat
  | _, [] => []
  | i, b :: bs => (b + ksByte key nonce i) % 256 :: encBytes key nonce (i + 1) bs

/-- Decrypt bytes with the keystream starting at position `i`. -/
def decBytes (key nonce : List Nat) : Nat → List Nat → List Nat
  | _, [] => []
  | i, c :: cs => (c + 256 - ksByte key nonce i) % 256 :: decBytes key nonce (i + 1) cs

/-- Modelled from the spec: §4.2 AeadCipher — the 16-byte (128-bit)
authentication tag, a deterministic function of key, nonce and ciphertext. -/
def macTag (key nonce ct : List Nat) : List Nat :=
  (List.range 16).map (fun i => mix (mix (mix (i + 3) key) nonce) ct % 256)

/-- Modelled from the spec: §4.2 `seal(key, nonce, plaintext) ->
ciphertext‖tag` with a 128-bit tag appended to the ciphertext. -/
def aeadSeal (key nonce pt : List Nat) : List Nat :=
  let ct := encBytes key nonce 0 pt
  ct ++ macTag key nonce ct

/-- Modelled from the spec: §4.2 `open(key, nonce, ciphertext‖tag) ->
plaintext | AuthenticationError`; fails closed on any tag mismatch. -/
def aeadOpen (key nonce c : List Nat) : Option (List Nat) :=
  if c.length < 16 then none
  else
    let ct := c.take (c.length - 16)
    let tg := c.drop (c.length - 16)
    if tg = macTag key nonce ct then some (decBytes key nonce 0 ct) else none

/-! ## Frame layout, carriers, capacity and the orchestrator (engine model) -/

/-- Big-endian 4-byte encoding of the ciphertext length (spec §3 Frame). -/
def be32 (n : Nat) : List Nat :=
  [n / 16777216 % 256, n / 65536 % 256, n / 256 % 256, n % 256]

/-- Decode a big-endian 4-byte length from the head of a byte sequence. -/
def decodeBe32 : List Nat → Nat
  | a :: b :: c :: d :: _ => ((a * 256 + b) * 256 + c) * 256 + d
  | _ => 0

/-- Modelled from the spec: §3/§4.4 — a supported carrier, abstracted to
the byte sequence its BitChannel covers (for an image the R,G,B bytes of
every pixel in raster order, alpha excluded; for 16-bit PCM audio the
designated low byte of every sample), which is the spec's own
carrier-agnostic view and the only part of the carrier the codec touches. -/
structure Carrier where
  covered : List Nat
deriving DecidableEq

/-- Frame overhead in bytes: 16 (salt) + 12 (nonce) + 4 (length) + 16
(AEAD tag) (spec §4.7). -/
def frameOverhead : Nat := 48

/-- Modelled from the spec: §4.7 CapacityCalculator —
`floor(capacity_bits / 8) - frame_overhead_bytes`, truncated at 0. -/
def capacityBytes (c : Carrier) : Nat :=
  c.covered.length / 8 - frameOverhead

/-- Error taxonomy of the engine (spec §7). -/
inductive EngineError
  | invalidInput
  | capacityExceeded
  | recoveryFailed
deriving DecidableEq

/-- Modelled from the spec: §4.3 PayloadFramer `build` — salt ‖ nonce ‖
big-endian ciphertext length ‖ ciphertext‖tag. -/
def buildFrame (msg pass salt nonce : List Nat) : List Nat :=
  let ct := aeadSeal (derive pass salt) nonce msg
  salt ++ nonce ++ be32 ct.length ++ ct

/-- Modelled from the spec: §4.8 Orchestrator `encode` — rejects an empty
passphrase (`InvalidInput`, §4.1/§7), fails with `CapacityExceeded` when
`len(message) > capacity_bytes(carrier)`, otherwise builds the frame and
writes its bits into the carrier's LSB channel.  The fresh random salt
(16 bytes) and nonce (12 bytes) are explicit inputs, randomness being the
engine's only external dependency (spec §5). -/
def encode (c : Carrier) (msg pass salt nonce : List Nat) : Except EngineError Carrier :=
  if pass = [] then .error .invalidInput
  else if capacityBytes c < msg.length then .error .capacityExceeded
  else .ok ⟨writeBits (bytesToBits (buildFrame msg pass salt nonce)) c.covered⟩

/-- Modelled from the spec: §4.8 Orchestrator `decode` — reads the fixed
32-byte frame head from the LSB channel, validates the declared
ciphertext length against the carrier's remaining embeddable capacity,
reads exactly that many further bytes, derives the key and opens the
AEAD payload; every failure is `RecoveryFailed`. -/
def decode (c : Carrier) (pass : List Nat) : Except EngineError (List Nat) :=
  if pass = [] then .error .invalidInput
  else if c.covered.length < 256 then .error .recoveryFailed
  else
    let bits := lsbs c.covered
    let pre := bitsToBytes (bits.take 256)
    let salt := pre.take 16
    let nonce := (pre.drop 16).take 12
    let ctLen := decodeBe32 (pre.drop 28)
    if c.covered.length / 8 < 32 + ctLen then .error .recoveryFailed
    else
      let ct := bitsToBytes ((bits.drop 256).take (8 * ctLen))
      match aeadOpen (derive pass salt) nonce ct with
      | some m => .ok m
      | none => .error .recoveryFailed

/-! ## UI layer (embedded from src/src/App.vue)

The reactive refs of the script block become fields of `UIState`;
computed properties become functions of the state; each async handler
becomes a transition of the `step` function, with the outcome of the
awaited backend invocation supplied by the triggering `Event`. -/

/-- App.vue `type Mode = "image" | "audio"`. -/
inductive Mode
  | image
  | audio
deriving DecidableEq

/-- Reactive state of App.vue (webcam / recorder scratch state, which
never reaches the engine boundary, is omitted). -/
structure UIState where
  activeMode : Mode
  isLoading : Bool
  errorMessage : String
  successMessage : String
  encodeImage : Option String
  encodeImageName : String
  encodeMessage : String
  encodePassphrase : String
  imageCapacity : Option Nat
  encodedImageResult : Option String
  decodeImage : Option String
  decodeImageName : String
  decodeImagePassphrase : String
  decodedImageMessage : String
  encodeAudio : Option String
  encodeAudioName : String
  encodeAudioMessage : String
  encodeAudioPassphrase : String
  audioCapacity : Option Nat
  encodedAudioResult : Option String
  decodeAudio : Option String
  decodeAudioName : String
  decodeAudioPassphrase : String
  decodedAudioMessage : String
deriving DecidableEq

/-- Initial reactive state: every ref starts as `""`, `null`, `false`,
with image mode active (App.vue lines 9-41). -/
def initState : UIState where
  activeMode := Mode.image
  isLoading := false
  errorMessage := ""
  successMessage := ""
  encodeImage := none
  encodeImageName := ""
  encodeMessage := ""
  encodePassphrase := ""
  imageCapacity := none
  encodedImageResult := none
  decodeImage := none
  decodeImageName := ""
  decodeImagePassphrase := ""
  decodedImageMessage := ""
  encodeAudio := none
  encodeAudioName := ""
  encodeAudioMessage := ""
  encodeAudioPassphrase := ""
  audioCapacity := none
  encodedAudioResult := none
  decodeAudio := none
  decodeAudioName := ""
  decodeAudioPassphrase := ""
  decodedAudioMessage := ""

/-- JavaScript truthiness of a `ref<string | null>`: `null` and the empty
string are falsy. -/
def optTruthy : Option String → Bool
  | none => false
  | some s => !(s == "")

/-- Model of JavaScript `String.prototype.trim`: strip whitespace from
both ends (evaluated on the character list so it reduces in the kernel). -/
def jsTrim (s : String) : String :=
  ⟨((s.data.dropWhile Char.isWhitespace).reverse.dropWhile Char.isWhitespace).reverse⟩

/-- Model of `new TextEncoder().encode(s).length`: the number of bytes in
the UTF-8 encoding of `s` (each character contributes its UTF-8 size). -/
def textEncoderLen (s : String) : Nat :=
  (s.data.map Char.utf8Size).sum

/-- App.vue `messageLength` (lines 57-63): UTF-8 byte length of the
active mode's message text. -/
def messageLength (s : UIState) : Nat :=
  match s.activeMode with
  | Mode.image => textEncoderLen s.encodeMessage
  | Mode.audio => textEncoderLen s.encodeAudioMessage

/-- App.vue `canEncode` (lines 65-83). -/
def canEncode (s : UIState) : Bool :=
  match s.activeMode with
  | Mode.image =>
    optTruthy s.encodeImage && !(jsTrim s.encodeMessage == "") &&
      !(s.encodePassphrase == "") &&
      (match s.imageCapacity with
       | none => false
       | some cap => decide (messageLength s ≤ cap))
  | Mode.audio =>
    optTruthy s.encodeAudio && !(jsTrim s.encodeAudioMessage == "") &&
      !(s.encodeAudioPassphrase == "") &&
      (match s.audioCapacity with
       | none => false
       | some cap => decide (messageLength s ≤ cap))

/-- App.vue `canDecode` (lines 85-91). -/
def canDecode (s : UIState) : Bool :=
  match s.activeMode with
  | Mode.image => optTruthy s.decodeImage && !(s.decodeImagePassphrase == "")
  | Mode.audio => optTruthy s.decodeAudio && !(s.decodeAudioPassphrase == "")

/-- App.vue `clearMessages` (lines 93-96). -/
def clearMessages (s : UIState) : UIState :=
  { s with errorMessage := "", successMessage := "" }

/-- One invocation of the Tauri backend as App.vue performs it:
`invoke(cmd, args)` with string-keyed arguments (the untyped
command-invocation boundary of spec §9). -/
structure EngineCall where
  cmd : String
  args : List (String × String)
deriving DecidableEq

/-- External events driving App.vue, each carrying the outcome of the
awaited backend/platform work it triggers: carrier selections and
captures (with the result of the capacity query), input edits, and
clicks of the four action buttons (with the result of the engine call). -/
inductive Event
  | switchMode (m : Mode)
  | setEncodeMessage (v : String)
  | setEncodePassphrase (v : String)
  | setDecodeImagePassphrase (v : String)
  | setEncodeAudioMessage (v : String)
  | setEncodeAudioPassphrase (v : String)
  | setDecodeAudioPassphrase (v : String)
  | selectEncodeImage (name b64 : String) (res : Except String Nat)
  | capturePhoto (name b64 : String) (res : Except String Nat)
  | selectDecodeImage (name b64 : String)
  | selectEncodeAudio (name b64 : String) (res : Except String Nat)
  | processRecordedAudio (name b64 : String) (res : Except String Nat)
  | selectDecodeAudio (name b64 : String)
  | clickEncodeImage (res : Except String String)
  | clickDecodeImage (res : Except String String)
  | clickEncodeAudio (res : Except String String)
  | clickDecodeAudio (res : Except String String)

/-- Transition function of the App.vue state machine: the state after the
handler runs to completion, together with the backend invocations it
issued.  Click transitions require the relevant panel to be visible
(active mode, per the template) and the handler's own
`canEncode`/`canDecode` guard. -/
def step (s : UIState) (e : Event) : UIState × List EngineCall :=
  match e with
  | .switchMode m => ({ clearMessages s with activeMode := m }, [])
  | .setEncodeMessage v => ({ s with encodeMessage := v }, [])
  | .setEncodePassphrase v => ({ s with encodePassphrase := v }, [])
  | .setDecodeImagePassphrase v => ({ s with decodeImagePassphrase := v }, [])
  | .setEncodeAudioMessage v => ({ s with encodeAudioMessage := v }, [])
  | .setEncodeAudioPassphrase v => ({ s with encodeAudioPassphrase := v }, [])
  | .setDecodeAudioPassphrase v => ({ s with decodeAudioPassphrase := v }, [])
  | .selectEncodeImage name b64 res =>
    let s1 := { clearMessages s with encodeImage := some b64, encodeImageName := name }
    (match res with
     | .ok cap => { s1 with imageCapacity := some cap, encodedImageResult := none }
     | .error err => { s1 with errorMessage := "Failed to load image: " ++ err },
     [⟨"get_image_capacity", [("imageBase64", b64)]⟩])
  | .capturePhoto name b64 res =>
    let s1 := { s with encodeImage := some b64, encodeImageName := name }
    (match res with
     | .ok cap => { s1 with imageCapacity := some cap, encodedImageResult := none,
                            successMessage := "Photo captured successfully!" }
     | .error err => { s1 with errorMessage := "Failed to process captured image: " ++ err },
     [⟨"get_image_capacity", [("imageBase64", b64)]⟩])
  | .selectDecodeImage name b64 =>
    ({ clearMessages s with decodeImage := some b64, decodeImageName := name,
                            decodedImageMessage := "" }, [])
  | .selectEncodeAudio name b64 res =>
    let s1 := { clearMessages s with encodeAudio := some b64, encodeAudioName := name }
    (match res with
     | .ok cap => { s1 with audioCapacity := some cap, encodedAudioResult := none }
     | .error err => { s1 with errorMessage := "Failed to load audio: " ++ err },
     [⟨"get_audio_capacity", [("audioBase64", b64)]⟩])
  | .processRecordedAudio name b64 res =>
    let s1 := { s with encodeAudio := some b64, encodeAudioName := name }
    (match res with
     | .ok cap => { s1 with audioCapacity := some cap, encodedAudioResult := none,
                            successMessage := "Audio recorded successfully!" }
     | .error err => { s1 with errorMessage := "Failed to process recorded audio: " ++ err },
     [⟨"get_audio_capacity", [("audioBase64", b64)]⟩])
  | .selectDecodeAudio name b64 =>
    ({ clearMessages s with decodeAudio := some b64, decodeAudioName := name,
                            decodedAudioMessage := "" }, [])
  | .clickEncodeImage res =>
    if s.activeMode = Mode.image ∧ canEncode s = true then
      let s1 := { clearMessages s with isLoading := true }
      (match res with
       | .ok r => { s1 with encodedImageResult := some r,
                            successMessage := "Message encoded successfully! Click \x27Save Image\x27 to download.",
                            isLoading := false }
       | .error err => { s1 with errorMessage := "Encoding failed: " ++ err, isLoading := false },
       [⟨"encode_message", [("imageBase64", s.encodeImage.getD ""),
          ("message", s.encodeMessage), ("passphrase", s.encodePassphrase)]⟩])
    else (s, [])
  | .clickDecodeImage res =>
    if s.activeMode = Mode.image ∧ canDecode s = true then
      let s1 := { clearMessages s with isLoading := true }
      (match res with
       | .ok r => { s1 with decodedImageMessage := r,
                            successMessage := "Message decoded successfully!", isLoading := false }
       | .error err => { s1 with errorMessage := "Decoding failed: " ++ err, isLoading := false },
       [⟨"decode_message", [("imageBase64", s.decodeImage.getD ""),
          ("passphrase", s.decodeImagePassphrase)]⟩])
    else (s, [])
  | .clickEncodeAudio res =>
    if s.activeMode = Mode.audio ∧ canEncode s = true then
      let s1 := { clearMessages s with isLoading := true }
      (match res with
       | .ok r => { s1 with encodedAudioResult := some r,
                            successMessage := "Message encoded successfully! Click \x27Save Audio\x27 to download.",
                            isLoading := false }
       | .error err => { s1 with errorMessage := "Encoding failed: " ++ err, isLoading := false },
       [⟨"encode_audio_message", [("audioBase64", s.encodeAudio.getD ""),
          ("message", s.encodeAudioMessage), ("passphrase", s.encodeAudioPassphrase)]⟩])
    else (s, [])
  | .clickDecodeAudio res =>
    if s.activeMode = Mode.audio ∧ canDecode s = true then
      let s1 := { clearMessages s with isLoading := true }
      (match res with
       | .ok r => { s1 with decodedAudioMessage := r,
                            successMessage := "Message decoded successfully!", isLoading := false }
       | .error err => { s1 with errorMessage := "Decoding failed: " ++ err, isLoading := false },
       [⟨"decode_audio_message", [("audioBase64", s.decodeAudio.getD ""),
          ("passphrase", s.decodeAudioPassphrase)]⟩])
    else (s, [])

/-- State component of a transition. -/
def stepState (s : UIState) (e : Event) : UIState := (step s e).1

/-- Backend invocations issued by a transition. -/
def stepCalls (s : UIState) (e : Event) : List EngineCall := (step s e).2

/-- Run a sequence of events from a state. -/
def runState (s : UIState) (evs : List Event) : UIState :=
  evs.foldl stepState s

/-- Events whose image-capacity query succeeded (the only transitions
that assign `imageCapacity`). -/
def isImageCapSuccess : Event → Bool
  | .selectEncodeImage _ _ (Except.ok _) => true
  | .capturePhoto _ _ (Except.ok _) => true
  | _ => false

/-- Events whose audio-capacity query succeeded (the only transitions
that assign `audioCapacity`). -/
def isAudioCapSuccess : Event → Bool
  | .selectEncodeAudio _ _ (Except.ok _) => true
  | .processRecordedAudio _ _ (Except.ok _) => true
  | _ => false

/-- Events holding a successful image-capacity query for the given
carrier bytes. -/
def isImageCapSuccessFor (b : String) : Event → Bool
  | .selectEncodeImage _ c (Except.ok _) => c == b
  | .capturePhoto _ c (Except.ok _) => c == b
  | _ => false

/-- The six fixed operation shapes of the engine boundary (spec §6):
command name together with the exact argument keys App.vue passes. -/
def wellShaped (c : EngineCall) : Prop :=
  (c.cmd = "get_image_capacity" ∧ ∃ b, c.args = [("imageBase64", b)]) ∨
  (c.cmd = "get_audio_capacity" ∧ ∃ b, c.args = [("audioBase64", b)]) ∨
  (c.cmd = "encode_message" ∧
    ∃ b m p, c.args = [("imageBase64", b), ("message", m), ("passphrase", p)]) ∨
  (c.cmd = "decode_message" ∧ ∃ b p, c.args = [("imageBase64", b), ("passphrase", p)]) ∨
  (c.cmd = "encode_audio_message" ∧
    ∃ b m p, c.args = [("audioBase64", b), ("message", m), ("passphrase", p)]) ∨
  (c.cmd = "decode_audio_message" ∧ ∃ b p, c.args = [("audioBase64", b), ("passphrase", p)])

/-- Concrete event sequence exhibiting a stale capacity value: an image
is selected and its capacity obtained, then a captured photo replaces the
carrier but its capacity query fails, leaving the old capacity in place. -/
def staleTrace : List Event :=
  [Event.selectEncodeImage "a.png" "AAA" (Except.ok 1000),
   Event.capturePhoto "cap.png" "BBB" (Except.error "boom"),
   Event.setEncodeMessage "hi",
   Event.setEncodePassphrase "p"]

/-! ## WebM-to-WAV transcoding (embedded from src/src/App.vue)

Samples are modelled as rationals; `DataView.setInt16` truncates its
argument toward zero and stores it in two bytes, little-endian. -/

/-- Decoded audio handed to `audioBufferToWav` (Web Audio `AudioBuffer`):
`length` counts frames, `channelData ch i` is sample `i` of channel `ch`. -/
structure AudioBuffer where
  numberOfChannels : Nat
  sampleRate : Nat
  length : Nat
  channelData : Nat → Nat → ℚ

/-- Truncation toward zero, as JavaScript applies to a fractional value
stored through `DataView.setInt16`. -/
def truncQ (q : ℚ) : ℤ :=
  if q < 0 then ⌈q⌉ else ⌊q⌋

/-- Clamp a sample to [-1, 1]: `Math.max(-1, Math.min(1, x))`
(App.vue line 331). -/
def clamp1 (x : ℚ) : ℚ := max (-1) (min 1 x)

/-- The 16-bit integer App.vue stores for one channel sample
(lines 331-337): the clamped sample scaled by 0x8000 when negative and
0x7fff otherwise, truncated by the `setInt16` conversion. -/
def sampleToInt16 (x : ℚ) : ℤ :=
  truncQ (if clamp1 x < 0 then clamp1 x * 32768 else clamp1 x * 32767)

/-- Little-endian unsigned 16-bit bytes (`DataView.setUint16(_, _, true)`). -/
def u16le (n : Nat) : List Nat := [n % 256, n / 256 % 256]

/-- Little-endian unsigned 32-bit bytes (`DataView.setUint32(_, _, true)`). -/
def u32le (n : Nat) : List Nat :=
  [n % 256, n / 256 % 256, n / 65536 % 256, n / 16777216 % 256]

/-- Little-endian signed 16-bit bytes: two's complement storage of
`DataView.setInt16(_, v, true)` for an in-range value. -/
def int16le (v : ℤ) : List Nat :=
  [(v % 65536).toNat % 256, (v % 65536).toNat / 256]

/-- Byte codes `writeString` pours into the header (`charCodeAt`). -/
def asciiCodes (s : String) : List Nat := s.data.map Char.toNat

/-- App.vue `audioBufferToWav` (lines 292-342): 44-byte RIFF/WAVE header
followed by the interleaved 16-bit PCM samples, as the byte sequence the
`ArrayBuffer` holds. -/
def audioBufferToWav (b : AudioBuffer) : List Nat :=
  let blockAlign := b.numberOfChannels * 2
  let dataLength := b.length * blockAlign
  asciiCodes "RIFF" ++ u32le (36 + dataLength) ++ asciiCodes "WAVE" ++ asciiCodes "fmt " ++
    u32le 16 ++ u16le 1 ++ u16le b.numberOfChannels ++ u32le b.sampleRate ++
    u32le (b.sampleRate * blockAlign) ++ u16le blockAlign ++ u16le 16 ++
    asciiCodes "data" ++ u32le dataLength ++
    (List.range b.length).flatMap (fun i =>
      (List.range b.numberOfChannels).flatMap (fun ch =>
        int16le (sampleToInt16 (b.channelData ch i))))

/-- Byte of a buffer at an offset (0 past the end). -/
def byteAt (l : List Nat) (i : Nat) : Nat := l.getD i 0

/-- Read back a little-endian unsigned 16-bit header field. -/
def readU16le (l : List Nat) (off : Nat) : Nat :=
  byteAt l off + 256 * byteAt l (off + 1)

/-- Read back a little-endian unsigned 32-bit header field. -/
def readU32le (l : List Nat) (off : Nat) : Nat :=
  byteAt l off + 256 * byteAt l (off + 1) + 65536 * byteAt l (off + 2) +
    16777216 * byteAt l (off + 3)

/-! ## Base64 transport (embedded from src/src/App.vue)

A JavaScript binary string is modelled as its list of code units; `btoa`
and `atob` are modelled from standard base64 (RFC 4648). -/

/-- Character code of base64 digit `n < 64` (A-Z, a-z, 0-9, +, /). -/
def b64char (n : Nat) : Nat :=
  if n < 26 then 65 + n
  else if n < 52 then 97 + (n - 26)
  else if n < 62 then 48 + (n - 52)
  else if n = 62 then 43 else 47

/-- Inverse base64 digit lookup (0 for characters outside the alphabet). -/
def b64inv (c : Nat) : Nat :=
  if 65 ≤ c ∧ c ≤ 90 then c - 65
  else if 97 ≤ c ∧ c ≤ 122 then c - 97 + 26
  else if 48 ≤ c ∧ c ≤ 57 then c - 48 + 52
  else if c = 43 then 62
  else if c = 47 then 63
  else 0

/-- Model of `btoa`: encode a binary string three bytes at a time into
four base64 characters, padding the final group with `=` (code 61). -/
def btoaList : List Nat → List Nat
  | [] => []
  | [b0] => [b64char (b0 / 4), b64char (b0 % 4 * 16), 61, 61]
  | [b0, b1] => [b64char (b0 / 4), b64char (b0 % 4 * 16 + b1 / 16), b64char (b1 % 16 * 4), 61]
  | b0 :: b1 :: b2 :: rest =>
    b64char (b0 / 4) :: b64char (b0 % 4 * 16 + b1 / 16) :: b64char (b1 % 16 * 4 + b2 / 64) ::
      b64char (b2 % 64) :: btoaList rest

/-- Model of `atob`: decode four base64 characters at a time into three
bytes, honouring `=` padding in the final group. -/
def atobList : List Nat → List Nat
  | c0 :: c1 :: c2 :: c3 :: rest =>
    if c2 = 61 then [b64inv c0 * 4 + b64inv c1 / 16]
    else if c3 = 61 then
      [b64inv c0 * 4 + b64inv c1 / 16, b64inv c1 % 16 * 16 + b64inv c2 / 4]
    else
      (b64inv c0 * 4 + b64inv c1 / 16) :: (b64inv c1 % 16 * 16 + b64inv c2 / 4) ::
        (b64inv c2 % 4 * 64 + b64inv c3) :: atobList rest
  | _ => []

/-- App.vue `arrayBufferToBase64` (lines 626-632): build the binary
string of the buffer's bytes and base64-encode it. -/
def arrayBufferToBase64 (buffer : List Nat) : List Nat :=
  btoaList buffer

/-- App.vue `base64ToArrayBuffer` (lines 634-641): base64-decode to a
binary string and read its code units back as bytes. -/
def base64ToArrayBuffer (base64 : List Nat) : List Nat :=
  atobList base64

/-! ## Lemmas about the bit-level machinery -/

theorem length_bitsOfByte (b : Nat) : (bitsOfByte b).length = 8 := rfl

theorem bitsOfByte_le_one (b : Nat) : ∀ x ∈ bitsOfByte b, x ≤ 1 := by
  simp only [bitsOfByte, List.mem_cons, List.not_mem_nil, or_false]
  rintro x (rfl | rfl | rfl | rfl | rfl | rfl | rfl | rfl) <;> omega

theorem length_bytesToBits : ∀ l : List Nat, (bytesToBits l).length = 8 * l.length
  | [] => rfl
  | b :: bs => by
    simp [bytesToBits, length_bytesToBits bs, length_bitsOfByte]
    ring

theorem bytesToBits_le_one : ∀ l : List Nat, ∀ x ∈ bytesToBits l, x ≤ 1
  | b :: bs, x, hx => by
    rcases List.mem_append.1 hx with h | h
    · exact bitsOfByte_le_one b x h
    · exact bytesToBits_le_one bs x h

theorem byteOfBits8_bitsOfByte (b : Nat) (hb : b < 256) :
    byteOfBits8 (b / 128 % 2) (b / 64 % 2) (b / 32 % 2) (b / 16 % 2)
      (b / 8 % 2) (b / 4 % 2) (b / 2 % 2) (b % 2) = b := by
  simp only [byteOfBits8]
  omega

theorem bitsToBytes_bitsOfByte (b : Nat) (hb : b < 256) (l : List Nat) :
    bitsToBytes (bitsOfByte b ++ l) = b :: bitsToBytes l := by
  simp only [bitsOfByte, List.cons_append, List.nil_append, bitsToBytes]
  rw [byteOfBits8_bitsOfByte b hb]
  simp

theorem bitsToBytes_bytesToBits : ∀ l : List Nat, (∀ b ∈ l, b < 256) →
    bitsToBytes (bytesToBits l) = l
  | [], _ => rfl
  | b :: bs, h => by
    have hb : b < 256 := h b (List.mem_cons_self b bs)
    have hbs : ∀ x ∈ bs, x < 256 := fun x hx => h x (List.mem_cons_of_mem b hx)
    simp only [bytesToBits]
    rw [bitsToBytes_bitsOfByte b hb, bitsToBytes_bytesToBits bs hbs]

theorem bytesToBits_append : ∀ l₁ l₂ : List Nat,
    bytesToBits (l₁ ++ l₂) = bytesToBits l₁ ++ bytesToBits l₂
  | [], _ => rfl
  | b :: bs, l₂ => by
    simp [bytesToBits, bytesToBits_append bs l₂]

theorem bytesToBits_take : ∀ (l : List Nat) (k : Nat),
    (bytesToBits l).take (8 * k) = bytesToBits (l.take k)
  | [], k => by simp [bytesToBits]
  | b :: bs, 0 => by simp [bytesToBits]
  | b :: bs, k + 1 => by
    simp only [bytesToBits, List.take_succ_cons]
    have h8 : 8 * (k + 1) = (bitsOfByte b).length + 8 * k := by
      rw [length_bitsOfByte]; ring
    rw [h8, List.take_append, bytesToBits_take bs k]

theorem bytesToBits_drop : ∀ (l : List Nat) (k : Nat),
    (bytesToBits l).drop (8 * k) = bytesToBits (l.drop k)
  | [], k => by simp [bytesToBits]
  | b :: bs, 0 => by simp [bytesToBits]
  | b :: bs, k + 1 => by
    simp only [bytesToBits, List.drop_succ_cons]
    have h8 : 8 * (k + 1) = (bitsOfByte b).length + 8 * k := by
      rw [length_bitsOfByte]; ring
    rw [h8, List.drop_append, bytesToBits_drop bs k]

theorem length_writeBits : ∀ bs l : List Nat, (writeBits bs l).length = l.length
  | [], _ => rfl
  | _ :: _, [] => rfl
  | _ :: bs, _ :: xs => by simp [writeBits, length_writeBits bs xs]

theorem lsbs_writeBits : ∀ bs l : List Nat, bs.length ≤ l.length → (∀ b ∈ bs, b ≤ 1) →
    lsbs (writeBits bs l) = bs ++ lsbs (l.drop bs.length)
  | [], l, _, _ => by simp [writeBits, lsbs]
  | b :: bs, [], h, _ => by simp at h
  | b :: bs, x :: xs, h, hb => by
    have hlen : bs.length ≤ xs.length := by simpa using h
    have hbs : ∀ y ∈ bs, y ≤ 1 := fun y hy => hb y (List.mem_cons_of_mem b hy)
    simp only [writeBits, lsbs, List.map_cons, List.length_cons, List.drop_succ_cons,
      List.cons_append]
    have h1 : (x / 2 * 2 + b) % 2 = b := by
      have hb1 : b ≤ 1 := hb b (List.mem_cons_self b bs)
      omega
    have h2 := lsbs_writeBits bs xs hlen hbs
    simp only [lsbs] at h2
    rw [h1, h2]

/-! ## Lemmas about the modelled cipher and framing -/

theorem length_encBytes (key nonce : List Nat) :
    ∀ (i : Nat) (bs : List Nat), (encBytes key nonce i bs).length = bs.length
  | _, [] => rfl
  | i, _ :: bs => by simp [encBytes, length_encBytes key nonce (i + 1) bs]

theorem encBytes_lt (key nonce : List Nat) :
    ∀ (i : Nat) (bs : List Nat), ∀ x ∈ encBytes key nonce i bs, x < 256
  | i, b :: bs, x, hx => by
    rcases List.mem_cons.1 hx with rfl | h
    · exact Nat.mod_lt _ (by omega)
    · exact encBytes_lt key nonce (i + 1) bs x h

theorem macTag_lt (key nonce ct : List Nat) : ∀ x ∈ macTag key nonce ct, x < 256 := by
  intro x hx
  rcases List.mem_map.1 hx with ⟨i, _, rfl⟩
  exact Nat.mod_lt _ (by omega)

theorem length_macTag (key nonce ct : List Nat) : (macTag key nonce ct).length = 16 := by
  simp [macTag]

theorem decBytes_encBytes (key nonce : List Nat) :
    ∀ (i : Nat) (bs : List Nat), (∀ b ∈ bs, b < 256) →
      decBytes key nonce i (encBytes key nonce i bs) = bs
  | _, [], _ => rfl
  | i, b :: bs, h => by
    have hb : b < 256 := h b (List.mem_cons_self b bs)
    have hk : ksByte key nonce i < 256 := Nat.mod_lt _ (by omega)
    simp only [encBytes, decBytes]
    rw [decBytes_encBytes key nonce (i + 1) bs (fun x hx => h x (List.mem_cons_of_mem b hx))]
    have hbyte : ((b + ksByte key nonce i) % 256 + 256 - ksByte key nonce i) % 256 = b := by
      omega
    rw [hbyte]

theorem aeadOpen_aeadSeal (key nonce pt : List Nat) (h : ∀ b ∈ pt, b < 256) :
    aeadOpen key nonce (aeadSeal key nonce pt) = some pt := by
  have hct := length_encBytes key nonce 0 pt
  have htag := length_macTag key nonce (encBytes key nonce 0 pt)
  simp only [aeadSeal, aeadOpen, List.length_append, hct, htag]
  have hlen : ¬ (pt.length + 16 < 16) := by omega
  rw [if_neg hlen]
  have hsub : pt.length + 16 - 16 = (encBytes key nonce 0 pt).length := by omega
  rw [hsub, List.take_left, List.drop_left, if_pos rfl, decBytes_encBytes key nonce 0 pt h]

theorem be32_lt (n : Nat) : ∀ x ∈ be32 n, x < 256 := by
  simp only [be32, List.mem_cons, List.not_mem_nil, or_false]
  rintro x (rfl | rfl | rfl | rfl) <;> exact Nat.mod_lt _ (by omega)

theorem length_be32 (n : Nat) : (be32 n).length = 4 := rfl

theorem decodeBe32_be32 (n : Nat) (h : n < 4294967296) (t : List Nat) :
    decodeBe32 (be32 n ++ t) = n := by
  simp only [be32, List.cons_append, List.nil_append, decodeBe32]
  omega

theorem length_aeadSeal (key nonce pt : List Nat) :
    (aeadSeal key nonce pt).length = pt.length + 16 := by
  simp [aeadSeal, length_encBytes, length_macTag]

theorem aeadSeal_lt (key nonce pt : List Nat) : ∀ x ∈ aeadSeal key nonce pt, x < 256 := by
  intro x hx
  rcases List.mem_append.1 hx with h | h
  · exact encBytes_lt key nonce 0 pt x h
  · exact macTag_lt key nonce _ x h

theorem length_buildFrame (msg pass salt nonce : List Nat)
    (hsalt : salt.length = 16) (hnonce : nonce.length = 12) :
    (buildFrame msg pass salt nonce).length = msg.length + 48 := by
  simp [buildFrame, hsalt, hnonce, length_be32, length_aeadSeal]
  omega

theorem buildFrame_lt (msg pass salt nonce : List Nat)
    (hsaltb : ∀ b ∈ salt, b < 256) (hnonceb : ∀ b ∈ nonce, b < 256) :
    ∀ x ∈ buildFrame msg pass salt nonce, x < 256 := by
  intro x hx
  simp only [buildFrame, List.append_assoc, List.mem_append] at hx
  rcases hx with h | h | h | h
  · exact hsaltb x h
  · exact hnonceb x h
  · exact be32_lt _ x h
  · exact aeadSeal_lt _ _ _ x h

/-- Key lemma for the round-trip property: decoding a carrier whose LSB
channel holds a freshly written frame recovers the original message. -/
theorem decode_after_writeBits (cov msg pass salt nonce : List Nat)
    (hm1 : 1 ≤ msg.length)
    (hcap : msg.length ≤ cov.length / 8 - frameOverhead)
    (h32 : msg.length + 16 < 4294967296)
    (hp : pass ≠ [])
    (hmb : ∀ b ∈ msg, b < 256)
    (hsalt : salt.length = 16) (hsaltb : ∀ b ∈ salt, b < 256)
    (hnonce : nonce.length = 12) (hnonceb : ∀ b ∈ nonce, b < 256) :
    decode ⟨writeBits (bytesToBits (buildFrame msg pass salt nonce)) cov⟩ pass =
      Except.ok msg := by
  set ct := aeadSeal (derive pass salt) nonce msg with hct
  have hctlen : ct.length = msg.length + 16 := length_aeadSeal _ _ _
  set frame := buildFrame msg pass salt nonce with hframe
  have hflen : frame.length = msg.length + 48 := length_buildFrame _ _ _ _ hsalt hnonce
  have hfb : ∀ x ∈ frame, x < 256 := buildFrame_lt _ _ _ _ hsaltb hnonceb
  have hdiv : 48 + msg.length ≤ cov.length / 8 := by
    simp only [frameOverhead] at hcap
    omega
  have hfit : 8 * frame.length ≤ cov.length := by
    rw [hflen]
    omega
  have hwlen : (writeBits (bytesToBits frame) cov).length = cov.length :=
    length_writeBits _ _
  have hfblen : (bytesToBits frame).length = 8 * frame.length := length_bytesToBits _
  have hbits : lsbs (writeBits (bytesToBits frame) cov) =
      bytesToBits frame ++ lsbs (cov.drop (bytesToBits frame).length) :=
    lsbs_writeBits _ _ (by omega) (bytesToBits_le_one _)
  have hcov256 : ¬ ((writeBits (bytesToBits frame) cov).length < 256) := by
    rw [hwlen]
    omega
  have hsplit : frame = (salt ++ nonce ++ be32 ct.length) ++ ct := by
    simp [hframe, buildFrame, List.append_assoc, hct]
  have hplen : (salt ++ nonce ++ be32 ct.length).length = 32 := by
    simp [hsalt, hnonce, length_be32]
  have htake : (lsbs (writeBits (bytesToBits frame) cov)).take 256 =
      bytesToBits (salt ++ nonce ++ be32 ct.length) := by
    rw [hbits, List.take_append_of_le_length (by omega)]
    have h256 : (256 : Nat) = 8 * 32 := by norm_num
    rw [h256, bytesToBits_take, hsplit, List.take_left' hplen]
  have hpre : bitsToBytes ((lsbs (writeBits (bytesToBits frame) cov)).take 256) =
      salt ++ nonce ++ be32 ct.length := by
    rw [htake, bitsToBytes_bytesToBits]
    intro b hb
    apply hfb
    rw [hsplit]
    exact List.mem_append_left _ hb
  have hsaltrec : (salt ++ nonce ++ be32 ct.length).take 16 = salt := by
    rw [List.append_assoc, List.take_left' hsalt]
  have hnoncerec : ((salt ++ nonce ++ be32 ct.length).drop 16).take 12 = nonce := by
    rw [List.append_assoc, List.drop_left' hsalt, List.take_left' hnonce]
  have hlenrec : decodeBe32 ((salt ++ nonce ++ be32 ct.length).drop 28) = ct.length := by
    have h28 : (salt ++ nonce).length = 28 := by simp [hsalt, hnonce]
    rw [List.append_assoc, ← List.append_assoc salt nonce, List.drop_left' h28]
    have := decodeBe32_be32 ct.length (by omega) []
    rwa [List.append_nil] at this
  have hctrec : bitsToBytes (((lsbs (writeBits (bytesToBits frame) cov)).drop 256).take
      (8 * ct.length)) = ct := by
    rw [hbits, List.drop_append_of_le_length (by omega)]
    have h256 : (256 : Nat) = 8 * 32 := by norm_num
    rw [h256, bytesToBits_drop, hsplit, List.drop_left' hplen]
    have hctbits : (bytesToBits ct).length = 8 * ct.length := length_bytesToBits _
    rw [List.take_append_of_le_length (by omega),
      List.take_of_length_le (by omega)]
    exact bitsToBytes_bytesToBits ct (aeadSeal_lt _ _ _)
  have hguard : ¬ ((writeBits (bytesToBits frame) cov).length / 8 < 32 + ct.length) := by
    rw [hwlen]
    omega
  simp only [decode, if_neg hp, hcov256, if_neg hcov256, hpre, hsaltrec, hnoncerec, hlenrec,
    if_neg hguard, hctrec, hct, aeadOpen_aeadSeal _ _ _ hmb]
  simp

/-! ## Claim C1 — round trip -/

/-- C1 counterexample: on the degenerate supported carrier with no
covered bytes, the empty message satisfies `len(M) <= capacity(C) = 0`
and `encode` accepts it (the only guard is `len > capacity`), yet the
48-byte frame cannot be embedded and `decode` fails, so
`decode(encode(C, M, P), P)` does not return `M`. -/
theorem c1_round_trip_counterexample :
    encode ⟨[]⟩ [] [1] (List.replicate 16 0) (List.replicate 12 0) = Except.ok ⟨[]⟩ ∧
    decode ⟨[]⟩ [1] = Except.error EngineError.recoveryFailed := by
  constructor
  · rfl
  · rfl

/-- C1 (amended): for every supported carrier `C`, every non-empty
message `M` with `len(M) <= capacity(C)` (lengths within the frame's
4-byte length field) and every non-empty passphrase `P`,
`encode(C, M, P)` succeeds and `decode(encode(C, M, P), P)` returns
exactly `M`. -/
theorem c1_round_trip (c : Carrier) (msg pass salt nonce : List Nat)
    (hm1 : 1 ≤ msg.length)
    (hcap : msg.length ≤ capacityBytes c)
    (h32 : msg.length + 16 < 4294967296)
    (hp : pass ≠ [])
    (hmb : ∀ b ∈ msg, b < 256)
    (hsalt : salt.length = 16) (hsaltb : ∀ b ∈ salt, b < 256)
    (hnonce : nonce.length = 12) (hnonceb : ∀ b ∈ nonce, b < 256) :
    (encode c msg pass salt nonce).isOk = true ∧
    ∀ c2, encode c msg pass salt nonce = Except.ok c2 → decode c2 pass = Except.ok msg := by
  have hnotlt : ¬ (capacityBytes c < msg.length) := by omega
  have henc : encode c msg pass salt nonce =
      Except.ok ⟨writeBits (bytesToBits (buildFrame msg pass salt nonce)) c.covered⟩ := by
    simp only [encode, if_neg hp, if_neg hnotlt]
  constructor
  · rw [henc]
    rfl
  · intro c2 h2
    rw [henc] at h2
    have hc2 : c2 = ⟨writeBits (bytesToBits (buildFrame msg pass salt nonce)) c.covered⟩ :=
      (Except.ok.inj h2).symm
    rw [hc2]
    exact decode_after_writeBits c.covered msg pass salt nonce hm1
      (by simpa [capacityBytes] using hcap) h32 hp hmb hsalt hsaltb hnonce hnonceb

/-- Witness for C1 at a concrete carrier of 392 covered bytes
(capacity 1) and the one-byte message `[65]`. -/
theorem c1_round_trip_witness :
    (encode ⟨List.replicate 392 0⟩ [65] [1] (List.replicate 16 0)
      (List.replicate 12 0)).isOk = true ∧
    ∀ c2, encode ⟨List.replicate 392 0⟩ [65] [1] (List.replicate 16 0)
      (List.replicate 12 0) = Except.ok c2 → decode c2 [1] = Except.ok [65] :=
  c1_round_trip ⟨List.replicate 392 0⟩ [65] [1] (List.replicate 16 0) (List.replicate 12 0)
    (by decide) (by decide) (by decide) (by decide) (by decide) (by decide) (by decide)
    (by decide) (by decide)

/-! ## Lemmas about the App.vue state machine -/

theorem stepState_imageCapacity (s : UIState) (e : Event) :
    (stepState s e).imageCapacity = s.imageCapacity ∨ isImageCapSuccess e = true := by
  cases e with
  | selectEncodeImage n b r => cases r <;> simp [stepState, step, clearMessages, isImageCapSuccess]
  | capturePhoto n b r => cases r <;> simp [stepState, step, isImageCapSuccess]
  | selectEncodeAudio n b r => cases r <;> simp [stepState, step, clearMessages, isImageCapSuccess]
  | processRecordedAudio n b r => cases r <;> simp [stepState, step, isImageCapSuccess]
  | clickEncodeImage r =>
    by_cases hg : s.activeMode = Mode.image ∧ canEncode s = true
    · obtain ⟨h1, h2⟩ := hg
      cases r <;> simp [stepState, step, h1, h2, clearMessages]
    · cases r <;> simp [stepState, step, hg]
  | clickDecodeImage r =>
    by_cases hg : s.activeMode = Mode.image ∧ canDecode s = true
    · obtain ⟨h1, h2⟩ := hg
      cases r <;> simp [stepState, step, h1, h2, clearMessages]
    · cases r <;> simp [stepState, step, hg]
  | clickEncodeAudio r =>
    by_cases hg : s.activeMode = Mode.audio ∧ canEncode s = true
    · obtain ⟨h1, h2⟩ := hg
      cases r <;> simp [stepState, step, h1, h2, clearMessages]
    · cases r <;> simp [stepState, step, hg]
  | clickDecodeAudio r =>
    by_cases hg : s.activeMode = Mode.audio ∧ canDecode s = true
    · obtain ⟨h1, h2⟩ := hg
      cases r <;> simp [stepState, step, h1, h2, clearMessages]
    · cases r <;> simp [stepState, step, hg]
  | _ => simp [stepState, step, clearMessages, isImageCapSuccess]

theorem stepState_audioCapacity (s : UIState) (e : Event) :
    (stepState s e).audioCapacity = s.audioCapacity ∨ isAudioCapSuccess e = true := by
  cases e with
  | selectEncodeImage n b r => cases r <;> simp [stepState, step, clearMessages, isAudioCapSuccess]
  | capturePhoto n b r => cases r <;> simp [stepState, step, isAudioCapSuccess]
  | selectEncodeAudio n b r => cases r <;> simp [stepState, step, clearMessages, isAudioCapSuccess]
  | processRecordedAudio n b r => cases r <;> simp [stepState, step, isAudioCapSuccess]
  | clickEncodeImage r =>
    by_cases hg : s.activeMode = Mode.image ∧ canEncode s = true
    · obtain ⟨h1, h2⟩ := hg
      cases r <;> simp [stepState, step, h1, h2, clearMessages]
    · cases r <;> simp [stepState, step, hg]
  | clickDecodeImage r =>
    by_cases hg : s.activeMode = Mode.image ∧ canDecode s = true
    · obtain ⟨h1, h2⟩ := hg
      cases r <;> simp [stepState, step, h1, h2, clearMessages]
    · cases r <;> simp [stepState, step, hg]
  | clickEncodeAudio r =>
    by_cases hg : s.activeMode = Mode.audio ∧ canEncode s = true
    · obtain ⟨h1, h2⟩ := hg
      cases r <;> simp [stepState, step, h1, h2, clearMessages]
    · cases r <;> simp [stepState, step, hg]
  | clickDecodeAudio r =>
    by_cases hg : s.activeMode = Mode.audio ∧ canDecode s = true
    · obtain ⟨h1, h2⟩ := hg
      cases r <;> simp [stepState, step, h1, h2, clearMessages]
    · cases r <;> simp [stepState, step, hg]
  | _ => simp [stepState, step, clearMessages, isAudioCapSuccess]

theorem imageCapacity_some_of_run : ∀ (evs : List Event) (s : UIState),
    (runState s evs).imageCapacity ≠ none →
    s.imageCapacity ≠ none ∨ ∃ e ∈ evs, isImageCapSuccess e = true
  | [], s, h => Or.inl (by simpa [runState] using h)
  | e :: evs, s, h => by
    have hrec := imageCapacity_some_of_run evs (stepState s e)
      (by simpa [runState] using h)
    rcases hrec with hrec | ⟨e2, he2, hsucc⟩
    · rcases stepState_imageCapacity s e with heq | hsucc
      · exact Or.inl (heq ▸ hrec)
      · exact Or.inr ⟨e, List.mem_cons_self e evs, hsucc⟩
    · exact Or.inr ⟨e2, List.mem_cons_of_mem e he2, hsucc⟩

theorem audioCapacity_some_of_run : ∀ (evs : List Event) (s : UIState),
    (runState s evs).audioCapacity ≠ none →
    s.audioCapacity ≠ none ∨ ∃ e ∈ evs, isAudioCapSuccess e = true
  | [], s, h => Or.inl (by simpa [runState] using h)
  | e :: evs, s, h => by
    have hrec := audioCapacity_some_of_run evs (stepState s e)
      (by simpa [runState] using h)
    rcases hrec with hrec | ⟨e2, he2, hsucc⟩
    · rcases stepState_audioCapacity s e with heq | hsucc
      · exact Or.inl (heq ▸ hrec)
      · exact Or.inr ⟨e, List.mem_cons_self e evs, hsucc⟩
    · exact Or.inr ⟨e2, List.mem_cons_of_mem e he2, hsucc⟩

theorem canEncode_image_capacity (s : UIState) (h : s.activeMode = Mode.image)
    (hc : canEncode s = true) : s.imageCapacity ≠ none := by
  intro hnone
  simp [canEncode, h, hnone] at hc

theorem canEncode_audio_capacity (s : UIState) (h : s.activeMode = Mode.audio)
    (hc : canEncode s = true) : s.audioCapacity ≠ none := by
  intro hnone
  simp [canEncode, h, hnone] at hc

theorem encode_message_call_inv (s : UIState) (e : Event) (call : EngineCall)
    (hmem : call ∈ stepCalls s e) (hcmd : call.cmd = "encode_message") :
    s.activeMode = Mode.image ∧ canEncode s = true := by
  cases e with
  | selectEncodeImage n b r =>
    cases r <;> simp [stepCalls, step] at hmem <;> simp [hmem] at hcmd
  | capturePhoto n b r =>
    cases r <;> simp [stepCalls, step] at hmem <;> simp [hmem] at hcmd
  | selectEncodeAudio n b r =>
    cases r <;> simp [stepCalls, step] at hmem <;> simp [hmem] at hcmd
  | processRecordedAudio n b r =>
    cases r <;> simp [stepCalls, step] at hmem <;> simp [hmem] at hcmd
  | clickEncodeImage r =>
    by_cases hg : s.activeMode = Mode.image ∧ canEncode s = true
    · exact hg
    · cases r <;> simp [stepCalls, step, hg] at hmem
  | clickDecodeImage r =>
    by_cases hg : s.activeMode = Mode.image ∧ canDecode s = true
    · obtain ⟨h1, h2⟩ := hg
      cases r <;> simp [stepCalls, step, h1, h2] at hmem <;> simp [hmem] at hcmd
    · cases r <;> simp [stepCalls, step, hg] at hmem
  | clickEncodeAudio r =>
    by_cases hg : s.activeMode = Mode.audio ∧ canEncode s = true
    · obtain ⟨h1, h2⟩ := hg
      cases r <;> simp [stepCalls, step, h1, h2] at hmem <;> simp [hmem] at hcmd
    · cases r <;> simp [stepCalls, step, hg] at hmem
  | clickDecodeAudio r =>
    by_cases hg : s.activeMode = Mode.audio ∧ canDecode s = true
    · obtain ⟨h1, h2⟩ := hg
      cases r <;> simp [stepCalls, step, h1, h2] at hmem <;> simp [hmem] at hcmd
    · cases r <;> simp [stepCalls, step, hg] at hmem
  | _ => simp [stepCalls, step] at hmem

theorem encode_audio_call_inv (s : UIState) (e : Event) (call : EngineCall)
    (hmem : call ∈ stepCalls s e) (hcmd : call.cmd = "encode_audio_message") :
    s.activeMode = Mode.audio ∧ canEncode s = true := by
  cases e with
  | selectEncodeImage n b r =>
    cases r <;> simp [stepCalls, step] at hmem <;> simp [hmem] at hcmd
  | capturePhoto n b r =>
    cases r <;> simp [stepCalls, step] at hmem <;> simp [hmem] at hcmd
  | selectEncodeAudio n b r =>
    cases r <;> simp [stepCalls, step] at hmem <;> simp [hmem] at hcmd
  | processRecordedAudio n b r =>
    cases r <;> simp [stepCalls, step] at hmem <;> simp [hmem] at hcmd
  | clickEncodeImage r =>
    by_cases hg : s.activeMode = Mode.image ∧ canEncode s = true
    · obtain ⟨h1, h2⟩ := hg
      cases r <;> simp [stepCalls, step, h1, h2] at hmem <;> simp [hmem] at hcmd
    · cases r <;> simp [stepCalls, step, hg] at hmem
  | clickDecodeImage r =>
    by_cases hg : s.activeMode = Mode.image ∧ canDecode s = true
    · obtain ⟨h1, h2⟩ := hg
      cases r <;> simp [stepCalls, step, h1, h2] at hmem <;> simp [hmem] at hcmd
    · cases r <;> simp [stepCalls, step, hg] at hmem
  | clickEncodeAudio r =>
    by_cases hg : s.activeMode = Mode.audio ∧ canEncode s = true
    · exact hg
    · cases r <;> simp [stepCalls, step, hg] at hmem
  | clickDecodeAudio r =>
    by_cases hg : s.activeMode = Mode.audio ∧ canDecode s = true
    · obtain ⟨h1, h2⟩ := hg
      cases r <;> simp [stepCalls, step, h1, h2] at hmem <;> simp [hmem] at hcmd
    · cases r <;> simp [stepCalls, step, hg] at hmem
  | _ => simp [stepCalls, step] at hmem

/-! ## Claim C2 — encode enabling conditions and capacity gating -/

/-- C2 counterexample: after a successful capacity query for carrier
`AAA`, capturing photo `BBB` whose capacity query fails leaves the stale
capacity in place, and the next encode click invokes `encode_message` on
carrier `BBB` although no capacity query for `BBB` ever succeeded —
refuting "a capacity value has been successfully obtained for that
carrier" and "never invoked before a successful capacity query on the
selected carrier". -/
theorem c2_encode_gating_counterexample :
    stepCalls (runState initState staleTrace) (Event.clickEncodeImage (Except.ok "X")) =
      [⟨"encode_message", [("imageBase64", "BBB"), ("message", "hi"), ("passphrase", "p")]⟩] ∧
    staleTrace.all (fun ev => !(isImageCapSuccessFor "BBB" ev)) = true := by
  constructor
  · rfl
  · rfl

/-- C2 (amended): the encode action is enabled exactly when a carrier is
selected, the message is non-blank, the passphrase is non-empty, a
capacity value is present and the message's UTF-8 byte length is at most
that capacity; encoding is permitted at byte length equal to the
capacity and refused one past it; and `encode_message` /
`encode_audio_message` is never invoked before at least one successful
capacity query in the same mode — though, after a failed carrier
re-selection, the stored capacity may belong to a previously selected
carrier rather than the current one. -/
theorem c2_encode_gating :
    (∀ s : UIState, s.activeMode = Mode.image →
      (canEncode s = true ↔
        (optTruthy s.encodeImage = true ∧ jsTrim s.encodeMessage ≠ "" ∧
         s.encodePassphrase ≠ "" ∧
         ∃ cap, s.imageCapacity = some cap ∧ messageLength s ≤ cap))) ∧
    (∀ s : UIState, s.activeMode = Mode.audio →
      (canEncode s = true ↔
        (optTruthy s.encodeAudio = true ∧ jsTrim s.encodeAudioMessage ≠ "" ∧
         s.encodeAudioPassphrase ≠ "" ∧
         ∃ cap, s.audioCapacity = some cap ∧ messageLength s ≤ cap))) ∧
    (∀ (s : UIState) (cap : Nat), s.activeMode = Mode.image → s.imageCapacity = some cap →
      optTruthy s.encodeImage = true → jsTrim s.encodeMessage ≠ "" →
      s.encodePassphrase ≠ "" →
      (messageLength s = cap → canEncode s = true) ∧
      (messageLength s = cap + 1 → canEncode s = false)) ∧
    (∀ (s : UIState) (cap : Nat), s.activeMode = Mode.audio → s.audioCapacity = some cap →
      optTruthy s.encodeAudio = true → jsTrim s.encodeAudioMessage ≠ "" →
      s.encodeAudioPassphrase ≠ "" →
      (messageLength s = cap → canEncode s = true) ∧
      (messageLength s = cap + 1 → canEncode s = false)) ∧
    (∀ (evs : List Event) (e : Event) (call : EngineCall),
      call ∈ stepCalls (runState initState evs) e →
      (call.cmd = "encode_message" → ∃ ev ∈ evs, isImageCapSuccess ev = true) ∧
      (call.cmd = "encode_audio_message" → ∃ ev ∈ evs, isAudioCapSuccess ev = true)) := by
  refine ⟨?_, ?_, ?_, ?_, ?_⟩
  · intro s h
    cases hcap : s.imageCapacity with
    | none => simp [canEncode, h, hcap]
    | some cap => simp [canEncode, h, hcap, and_assoc]
  · intro s h
    cases hcap : s.audioCapacity with
    | none => simp [canEncode, h, hcap]
    | some cap => simp [canEncode, h, hcap, and_assoc]
  · intro s cap h hcap h1 h2 h3
    constructor
    · intro hlen
      simp [canEncode, h, hcap, h1, h2, h3, hlen]
    · intro hlen
      simp [canEncode, h, hcap, h1, h2, h3, hlen]
  · intro s cap h hcap h1 h2 h3
    constructor
    · intro hlen
      simp [canEncode, h, hcap, h1, h2, h3, hlen]
    · intro hlen
      simp [canEncode, h, hcap, h1, h2, h3, hlen]
  · intro evs e call hmem
    constructor
    · intro hcmd
      obtain ⟨hm, hc⟩ := encode_message_call_inv _ _ _ hmem hcmd
      have hne := canEncode_image_capacity _ hm hc
      rcases imageCapacity_some_of_run evs initState hne with hinit | hex
      · exact absurd rfl hinit
      · exact hex
    · intro hcmd
      obtain ⟨hm, hc⟩ := encode_audio_call_inv _ _ _ hmem hcmd
      have hne := canEncode_audio_capacity _ hm hc
      rcases audioCapacity_some_of_run evs initState hne with hinit | hex
      · exact absurd rfl hinit
      · exact hex

/-- Witness for C2: a concrete image-mode state with capacity 5 where a
5-byte message is accepted and a 6-byte message is refused. -/
theorem c2_encode_gating_witness :
    canEncode { initState with encodeImage := some "IMG", encodeMessage := "hello",
                               encodePassphrase := "pw", imageCapacity := some 5 } = true ∧
    canEncode { initState with encodeImage := some "IMG", encodeMessage := "hello!",
                               encodePassphrase := "pw", imageCapacity := some 5 } = false := by
  constructor
  · exact ((c2_encode_gating.2.2.1
      { initState with encodeImage := some "IMG", encodeMessage := "hello",
                       encodePassphrase := "pw", imageCapacity := some 5 } 5
      (by decide) (by decide) (by decide) (by decide) (by decide)).1 (by decide))
  · exact ((c2_encode_gating.2.2.1
      { initState with encodeImage := some "IMG", encodeMessage := "hello!",
                       encodePassphrase := "pw", imageCapacity := some 5 } 5
      (by decide) (by decide) (by decide) (by decide) (by decide)).2 (by decide))

/-! ## Claim C3 — empty inputs are rejected before any engine call -/

/-- C3: in any state whose (active-mode) message is empty or
whitespace-only, or whose passphrase is empty, clicking encode issues no
backend call; in any state whose decode passphrase is empty, clicking
decode issues no backend call. -/
theorem c3_empty_inputs_rejected :
    (∀ (s : UIState) (res : Except String String),
      jsTrim s.encodeMessage = "" ∨ s.encodePassphrase = "" →
      stepCalls s (Event.clickEncodeImage res) = []) ∧
    (∀ (s : UIState) (res : Except String String),
      jsTrim s.encodeAudioMessage = "" ∨ s.encodeAudioPassphrase = "" →
      stepCalls s (Event.clickEncodeAudio res) = []) ∧
    (∀ (s : UIState) (res : Except String String),
      s.decodeImagePassphrase = "" →
      stepCalls s (Event.clickDecodeImage res) = []) ∧
    (∀ (s : UIState) (res : Except String String),
      s.decodeAudioPassphrase = "" →
      stepCalls s (Event.clickDecodeAudio res) = []) := by
  refine ⟨?_, ?_, ?_, ?_⟩
  · intro s res h
    have hce : ¬ (s.activeMode = Mode.image ∧ canEncode s = true) := by
      rintro ⟨hm, hc⟩
      rcases h with h | h <;> simp [canEncode, hm, h] at hc
    cases res <;> simp [stepCalls, step, hce]
  · intro s res h
    have hce : ¬ (s.activeMode = Mode.audio ∧ canEncode s = true) := by
      rintro ⟨hm, hc⟩
      rcases h with h | h <;> simp [canEncode, hm, h] at hc
    cases res <;> simp [stepCalls, step, hce]
  · intro s res h
    have hcd : ¬ (s.activeMode = Mode.image ∧ canDecode s = true) := by
      rintro ⟨hm, hc⟩
      simp [canDecode, hm, h] at hc
    cases res <;> simp [stepCalls, step, hcd]
  · intro s res h
    have hcd : ¬ (s.activeMode = Mode.audio ∧ canDecode s = true) := by
      rintro ⟨hm, hc⟩
      simp [canDecode, hm, h] at hc
    cases res <;> simp [stepCalls, step, hcd]

/-- Witness for C3 at the initial state (all inputs empty): no click
issues an engine call. -/
theorem c3_empty_inputs_rejected_witness :
    stepCalls initState (Event.clickEncodeImage (Except.ok "r")) = [] ∧
    stepCalls initState (Event.clickEncodeAudio (Except.ok "r")) = [] ∧
    stepCalls initState (Event.clickDecodeImage (Except.ok "r")) = [] ∧
    stepCalls initState (Event.clickDecodeAudio (Except.ok "r")) = [] :=
  ⟨c3_empty_inputs_rejected.1 initState _ (Or.inl (by decide)),
   c3_empty_inputs_rejected.2.1 initState _ (Or.inl (by decide)),
   c3_empty_inputs_rejected.2.2.1 initState _ (by decide),
   c3_empty_inputs_rejected.2.2.2 initState _ (by decide)⟩

/-! ## Claim C4 — failed encode mutates no carrier state -/

/-- C4 counterexample: a failed encode also clears a previously shown
success message (`clearMessages` runs first), so it is not true that
only the error message and the loading flag are modified. -/
theorem c4_failed_encode_counterexample :
    (stepState { initState with encodeImage := some "IMG", encodeMessage := "hi",
                                encodePassphrase := "pw", imageCapacity := some 99,
                                successMessage := "old success" }
        (Event.clickEncodeImage (Except.error "boom"))).successMessage = "" ∧
    ({ initState with encodeImage := some "IMG", encodeMessage := "hi",
                      encodePassphrase := "pw", imageCapacity := some 99,
                      successMessage := "old success" } : UIState).successMessage =
      "old success" := by
  constructor
  · rfl
  · rfl

/-- C4 (amended): a run of `encodeMessageIntoImage` or
`encodeMessageIntoAudio` whose backend invocation throws leaves every
state field unchanged — in particular the selected carrier bytes, the
stored capacity and the previously stored encoded result — except the
error message (set to the failure text), the success message (cleared)
and the loading flag (reset to false). -/
theorem c4_failed_encode_preserves_state :
    (∀ (s : UIState) (d : String), s.activeMode = Mode.image → canEncode s = true →
      stepState s (Event.clickEncodeImage (Except.error d)) =
        { s with errorMessage := "Encoding failed: " ++ d, successMessage := "",
                 isLoading := false }) ∧
    (∀ (s : UIState) (d : String), s.activeMode = Mode.audio → canEncode s = true →
      stepState s (Event.clickEncodeAudio (Except.error d)) =
        { s with errorMessage := "Encoding failed: " ++ d, successMessage := "",
                 isLoading := false }) := by
  constructor
  · intro s d h1 h2
    simp [stepState, step, h1, h2, clearMessages]
  · intro s d h1 h2
    simp [stepState, step, h1, h2, clearMessages]

/-- Witness for C4 at a concrete encodable state and failure detail. -/
theorem c4_failed_encode_preserves_state_witness :
    stepState { initState with encodeImage := some "IMG", encodeMessage := "hi",
                               encodePassphrase := "pw", imageCapacity := some 99 }
        (Event.clickEncodeImage (Except.error "boom")) =
      { initState with encodeImage := some "IMG", encodeMessage := "hi",
                       encodePassphrase := "pw", imageCapacity := some 99,
                       errorMessage := "Encoding failed: boom", successMessage := "",
                       isLoading := false } :=
  c4_failed_encode_preserves_state.1
    { initState with encodeImage := some "IMG", encodeMessage := "hi",
                     encodePassphrase := "pw", imageCapacity := some 99 }
    "boom" (by decide) (by decide)

/-! ## Claim C7 — the engine is reached only through the six operations -/

/-- C7: every backend invocation any transition of the App.vue state
machine issues is one of the six fixed operations with exactly the
specified argument shape (the capacity queries take one base64 carrier,
the encode operations take carrier, message and passphrase, the decode
operations take carrier and passphrase; results are typed by the
corresponding `Event` outcome as an integer for capacity queries and
text for the others). -/
theorem c7_calls_wellShaped (s : UIState) (e : Event) :
    ∀ call ∈ stepCalls s e, wellShaped call := by
  intro call hmem
  cases e with
  | selectEncodeImage n b r =>
    have hc : call = ⟨"get_image_capacity", [("imageBase64", b)]⟩ := by
      cases r <;> simpa [stepCalls, step] using hmem
    rw [hc, wellShaped]
    exact Or.inl ⟨rfl, b, rfl⟩
  | capturePhoto n b r =>
    have hc : call = ⟨"get_image_capacity", [("imageBase64", b)]⟩ := by
      cases r <;> simpa [stepCalls, step] using hmem
    rw [hc, wellShaped]
    exact Or.inl ⟨rfl, b, rfl⟩
  | selectEncodeAudio n b r =>
    have hc : call = ⟨"get_audio_capacity", [("audioBase64", b)]⟩ := by
      cases r <;> simpa [stepCalls, step] using hmem
    rw [hc, wellShaped]
    exact Or.inr (Or.inl ⟨rfl, b, rfl⟩)
  | processRecordedAudio n b r =>
    have hc : call = ⟨"get_audio_capacity", [("audioBase64", b)]⟩ := by
      cases r <;> simpa [stepCalls, step] using hmem
    rw [hc, wellShaped]
    exact Or.inr (Or.inl ⟨rfl, b, rfl⟩)
  | clickEncodeImage r =>
    by_cases hg : s.activeMode = Mode.image ∧ canEncode s = true
    · obtain ⟨h1, h2⟩ := hg
      have hc : call = ⟨"encode_message", [("imageBase64", s.encodeImage.getD ""),
          ("message", s.encodeMessage), ("passphrase", s.encodePassphrase)]⟩ := by
        cases r <;> simpa [stepCalls, step, h1, h2] using hmem
      rw [hc, wellShaped]
      exact Or.inr (Or.inr (Or.inl ⟨rfl, _, _, _, rfl⟩))
    · cases r <;> simp [stepCalls, step, hg] at hmem
  | clickDecodeImage r =>
    by_cases hg : s.activeMode = Mode.image ∧ canDecode s = true
    · obtain ⟨h1, h2⟩ := hg
      have hc : call = ⟨"decode_message", [("imageBase64", s.decodeImage.getD ""),
          ("passphrase", s.decodeImagePassphrase)]⟩ := by
        cases r <;> simpa [stepCalls, step, h1, h2] using hmem
      rw [hc, wellShaped]
      exact Or.inr (Or.inr (Or.inr (Or.inl ⟨rfl, _, _, rfl⟩)))
    · cases r <;> simp [stepCalls, step, hg] at hmem
  | clickEncodeAudio r =>
    by_cases hg : s.activeMode = Mode.audio ∧ canEncode s = true
    · obtain ⟨h1, h2⟩ := hg
      have hc : call = ⟨"encode_audio_message", [("audioBase64", s.encodeAudio.getD ""),
          ("message", s.encodeAudioMessage), ("passphrase", s.encodeAudioPassphrase)]⟩ := by
        cases r <;> simpa [stepCalls, step, h1, h2] using hmem
      rw [hc, wellShaped]
      exact Or.inr (Or.inr (Or.inr (Or.inr (Or.inl ⟨rfl, _, _, _, rfl⟩))))
    · cases r <;> simp [stepCalls, step, hg] at hmem
  | clickDecodeAudio r =>
    by_cases hg : s.activeMode = Mode.audio ∧ canDecode s = true
    · obtain ⟨h1, h2⟩ := hg
      have hc : call = ⟨"decode_audio_message", [("audioBase64", s.decodeAudio.getD ""),
          ("passphrase", s.decodeAudioPassphrase)]⟩ := by
        cases r <;> simpa [stepCalls, step, h1, h2] using hmem
      rw [hc, wellShaped]
      exact Or.inr (Or.inr (Or.inr (Or.inr (Or.inr ⟨rfl, _, _, rfl⟩))))
    · cases r <;> simp [stepCalls, step, hg] at hmem
  | _ => simp [stepCalls, step] at hmem

/-- Witness for C7: the capacity call of a concrete carrier selection is
well-shaped. -/
theorem c7_calls_wellShaped_witness :
    wellShaped ⟨"get_image_capacity", [("imageBase64", "IMG")]⟩ :=
  c7_calls_wellShaped initState (Event.selectEncodeImage "a.png" "IMG" (Except.ok 7))
    ⟨"get_image_capacity", [("imageBase64", "IMG")]⟩ (by decide)

/-! ## Claim C8 — failures surface once, are not retried, reset loading -/

theorem stepState_isLoading (s : UIState) (e : Event) (h : s.isLoading = false) :
    (stepState s e).isLoading = false := by
  cases e with
  | selectEncodeImage n b r => cases r <;> simp [stepState, step, clearMessages, h]
  | capturePhoto n b r => cases r <;> simp [stepState, step, h]
  | selectEncodeAudio n b r => cases r <;> simp [stepState, step, clearMessages, h]
  | processRecordedAudio n b r => cases r <;> simp [stepState, step, h]
  | clickEncodeImage r =>
    by_cases hg : s.activeMode = Mode.image ∧ canEncode s = true
    · obtain ⟨h1, h2⟩ := hg
      cases r <;> simp [stepState, step, h1, h2, clearMessages]
    · cases r <;> simp [stepState, step, hg, h]
  | clickDecodeImage r =>
    by_cases hg : s.activeMode = Mode.image ∧ canDecode s = true
    · obtain ⟨h1, h2⟩ := hg
      cases r <;> simp [stepState, step, h1, h2, clearMessages]
    · cases r <;> simp [stepState, step, hg, h]
  | clickEncodeAudio r =>
    by_cases hg : s.activeMode = Mode.audio ∧ canEncode s = true
    · obtain ⟨h1, h2⟩ := hg
      cases r <;> simp [stepState, step, h1, h2, clearMessages]
    · cases r <;> simp [stepState, step, hg, h]
  | clickDecodeAudio r =>
    by_cases hg : s.activeMode = Mode.audio ∧ canDecode s = true
    · obtain ⟨h1, h2⟩ := hg
      cases r <;> simp [stepState, step, h1, h2, clearMessages]
    · cases r <;> simp [stepState, step, hg, h]
  | _ => simp [stepState, step, clearMessages, h]

theorem runState_isLoading : ∀ (evs : List Event) (s : UIState), s.isLoading = false →
    (runState s evs).isLoading = false
  | [], s, h => by simpa [runState] using h
  | e :: evs, s, h => by
    have h1 := stepState_isLoading s e h
    simpa [runState] using runState_isLoading evs (stepState s e) h1

/-- C8: when an engine invocation fails — any of the four codec
operations, or a capacity query issued from a reachable state — exactly
one call was issued (no retry), the failure is surfaced synchronously as
the displayed error message carrying the detail text, the loading flag
ends false, and every other per-call result field of the state is
untouched (no failure is fatal or affects another call). -/
theorem c8_failure_surfacing :
    (∀ (s : UIState) (d : String), s.activeMode = Mode.image → canEncode s = true →
      stepState s (Event.clickEncodeImage (Except.error d)) =
        { s with errorMessage := "Encoding failed: " ++ d, successMessage := "",
                 isLoading := false } ∧
      (stepCalls s (Event.clickEncodeImage (Except.error d))).length = 1) ∧
    (∀ (s : UIState) (d : String), s.activeMode = Mode.image → canDecode s = true →
      stepState s (Event.clickDecodeImage (Except.error d)) =
        { s with errorMessage := "Decoding failed: " ++ d, successMessage := "",
                 isLoading := false } ∧
      (stepCalls s (Event.clickDecodeImage (Except.error d))).length = 1) ∧
    (∀ (s : UIState) (d : String), s.activeMode = Mode.audio → canEncode s = true →
      stepState s (Event.clickEncodeAudio (Except.error d)) =
        { s with errorMessage := "Encoding failed: " ++ d, successMessage := "",
                 isLoading := false } ∧
      (stepCalls s (Event.clickEncodeAudio (Except.error d))).length = 1) ∧
    (∀ (s : UIState) (d : String), s.activeMode = Mode.audio → canDecode s = true →
      stepState s (Event.clickDecodeAudio (Except.error d)) =
        { s with errorMessage := "Decoding failed: " ++ d, successMessage := "",
                 isLoading := false } ∧
      (stepCalls s (Event.clickDecodeAudio (Except.error d))).length = 1) ∧
    (∀ (evs : List Event) (n b d : String),
      (stepState (runState initState evs)
        (Event.selectEncodeImage n b (Except.error d))).errorMessage =
          "Failed to load image: " ++ d ∧
      (stepState (runState initState evs)
        (Event.selectEncodeImage n b (Except.error d))).isLoading = false ∧
      (stepCalls (runState initState evs)
        (Event.selectEncodeImage n b (Except.error d))).length = 1) ∧
    (∀ (evs : List Event) (n b d : String),
      (stepState (runState initState evs)
        (Event.capturePhoto n b (Except.error d))).errorMessage =
          "Failed to process captured image: " ++ d ∧
      (stepState (runState initState evs)
        (Event.capturePhoto n b (Except.error d))).isLoading = false ∧
      (stepCalls (runState initState evs)
        (Event.capturePhoto n b (Except.error d))).length = 1) ∧
    (∀ (evs : List Event) (n b d : String),
      (stepState (runState initState evs)
        (Event.selectEncodeAudio n b (Except.error d))).errorMessage =
          "Failed to load audio: " ++ d ∧
      (stepState (runState initState evs)
        (Event.selectEncodeAudio n b (Except.error d))).isLoading = false ∧
      (stepCalls (runState initState evs)
        (Event.selectEncodeAudio n b (Except.error d))).length = 1) ∧
    (∀ (evs : List Event) (n b d : String),
      (stepState (runState initState evs)
        (Event.processRecordedAudio n b (Except.error d))).errorMessage =
          "Failed to process recorded audio: " ++ d ∧
      (stepState (runState initState evs)
        (Event.processRecordedAudio n b (Except.error d))).isLoading = false ∧
      (stepCalls (runState initState evs)
        (Event.processRecordedAudio n b (Except.error d))).length = 1) := by
  refine ⟨?_, ?_, ?_, ?_, ?_, ?_, ?_, ?_⟩
  · intro s d h1 h2
    exact ⟨by simp [stepState, step, h1, h2, clearMessages],
           by simp [stepCalls, step, h1, h2]⟩
  · intro s d h1 h2
    exact ⟨by simp [stepState, step, h1, h2, clearMessages],
           by simp [stepCalls, step, h1, h2]⟩
  · intro s d h1 h2
    exact ⟨by simp [stepState, step, h1, h2, clearMessages],
           by simp [stepCalls, step, h1, h2]⟩
  · intro s d h1 h2
    exact ⟨by simp [stepState, step, h1, h2, clearMessages],
           by simp [stepCalls, step, h1, h2]⟩
  · intro evs n b d
    have hload := runState_isLoading evs initState rfl
    exact ⟨by simp [stepState, step, clearMessages],
           by simp [stepState, step, clearMessages, hload],
           by simp [stepCalls, step]⟩
  · intro evs n b d
    have hload := runState_isLoading evs initState rfl
    exact ⟨by simp [stepState, step],
           by simp [stepState, step, hload],
           by simp [stepCalls, step]⟩
  · intro evs n b d
    have hload := runState_isLoading evs initState rfl
    exact ⟨by simp [stepState, step, clearMessages],
           by simp [stepState, step, clearMessages, hload],
           by simp [stepCalls, step]⟩
  · intro evs n b d
    have hload := runState_isLoading evs initState rfl
    exact ⟨by simp [stepState, step],
           by simp [stepState, step, hload],
           by simp [stepCalls, step]⟩

/-- Witness for C8 on a concrete failed image decode. -/
theorem c8_failure_surfacing_witness :
    stepState { initState with decodeImage := some "IMG", decodeImagePassphrase := "pw" }
        (Event.clickDecodeImage (Except.error "bad tag")) =
      { initState with decodeImage := some "IMG", decodeImagePassphrase := "pw",
                       errorMessage := "Decoding failed: bad tag", successMessage := "",
                       isLoading := false } ∧
    (stepCalls { initState with decodeImage := some "IMG", decodeImagePassphrase := "pw" }
        (Event.clickDecodeImage (Except.error "bad tag"))).length = 1 :=
  c8_failure_surfacing.2.1
    { initState with decodeImage := some "IMG", decodeImagePassphrase := "pw" }
    "bad tag" (by decide) (by decide)

/-! ## Claim C5 — messageLength counts UTF-8 bytes -/

theorem sum_utf8Size_eq_utf8Len : ∀ cs : List Char,
    (cs.map Char.utf8Size).sum = String.utf8Len cs
  | [] => rfl
  | c :: cs => by
    simp [sum_utf8Size_eq_utf8Len cs]
    omega

theorem textEncoderLen_eq_utf8ByteSize (s : String) :
    textEncoderLen s = s.utf8ByteSize := by
  cases s
  simp [textEncoderLen, sum_utf8Size_eq_utf8Len]

/-- C5: for every UI state, `messageLength` is the number of bytes in
the UTF-8 encoding of the active mode's message text; on a message with
a two-byte character it differs from the character count. -/
theorem c5_messageLength_utf8 :
    (∀ s : UIState, messageLength s =
      (match s.activeMode with
       | Mode.image => s.encodeMessage
       | Mode.audio => s.encodeAudioMessage).utf8ByteSize) ∧
    messageLength { initState with encodeMessage := "héllo" } = 6 ∧
    "héllo".length = 5 := by
  refine ⟨?_, by decide, by decide⟩
  intro s
  cases h : s.activeMode <;> simp [messageLength, h, textEncoderLen_eq_utf8ByteSize]

/-! ## Claims C6 and C10 — WAV transcoding -/

theorem length_int16le (v : ℤ) : (int16le v).length = 2 := rfl

theorem length_flatMap_range (f : Nat → List Nat) (k : Nat) (h : ∀ i, (f i).length = k) :
    ∀ n, ((List.range n).flatMap f).length = n * k := by
  intro n
  induction n with
  | zero => simp
  | succ n ih =>
    rw [List.range_succ, List.flatMap_append]
    simp [ih, h n]
    ring

theorem length_wavData (b : AudioBuffer) :
    ((List.range b.length).flatMap (fun i =>
      (List.range b.numberOfChannels).flatMap (fun ch =>
        int16le (sampleToInt16 (b.channelData ch i))))).length =
    b.length * (b.numberOfChannels * 2) := by
  apply length_flatMap_range
  intro i
  exact length_flatMap_range _ 2 (fun ch => length_int16le _) b.numberOfChannels

/-- C6: `audioBufferToWav` produces exactly `44 + frames * channels * 2`
bytes whose header declares PCM format 1, the buffer's channel count and
sample rate, 16 bits per sample, and a data-chunk byte length of
`frames * channels * 2` — an uncompressed 16-bit PCM WAV of the recorded
carrier. -/
theorem c6_audioBufferToWav_header (b : AudioBuffer)
    (hr : b.sampleRate < 4294967296)
    (hc : b.numberOfChannels < 65536)
    (hd : b.length * (b.numberOfChannels * 2) < 4294967296) :
    (audioBufferToWav b).length = 44 + b.length * b.numberOfChannels * 2 ∧
    readU16le (audioBufferToWav b) 20 = 1 ∧
    readU16le (audioBufferToWav b) 22 = b.numberOfChannels ∧
    readU32le (audioBufferToWav b) 24 = b.sampleRate ∧
    readU16le (audioBufferToWav b) 34 = 16 ∧
    readU32le (audioBufferToWav b) 40 = b.length * b.numberOfChannels * 2 := by
  have hRIFF : asciiCodes "RIFF" = [82, 73, 70, 70] := by decide
  have hWAVE : asciiCodes "WAVE" = [87, 65, 86, 69] := by decide
  have hfmtc : asciiCodes "fmt " = [102, 109, 116, 32] := by decide
  have hdatac : asciiCodes "data" = [100, 97, 116, 97] := by decide
  refine ⟨?_, ?_, ?_, ?_, ?_, ?_⟩
  · simp [audioBufferToWav, hRIFF, hWAVE, hfmtc, hdatac, u32le, u16le, length_wavData b]
    ring
  · simp [audioBufferToWav, hRIFF, hWAVE, hfmtc, hdatac, u32le, u16le, readU16le, byteAt]
  · simp [audioBufferToWav, hRIFF, hWAVE, hfmtc, hdatac, u32le, u16le, readU16le, byteAt]
    omega
  · simp [audioBufferToWav, hRIFF, hWAVE, hfmtc, hdatac, u32le, u16le, readU32le, byteAt]
    omega
  · simp [audioBufferToWav, hRIFF, hWAVE, hfmtc, hdatac, u32le, u16le, readU16le, byteAt]
  · have he : b.length * b.numberOfChannels * 2 = b.length * (b.numberOfChannels * 2) := by
      ring
    rw [he]
    simp [audioBufferToWav, hRIFF, hWAVE, hfmtc, hdatac, u32le, u16le, readU32le, byteAt]
    omega

/-- Witness for C6 on a concrete one-channel two-frame silent buffer. -/
theorem c6_audioBufferToWav_header_witness :
    (audioBufferToWav ⟨1, 44100, 2, fun _ _ => 0⟩).length = 44 + 2 * 1 * 2 ∧
    readU16le (audioBufferToWav ⟨1, 44100, 2, fun _ _ => 0⟩) 20 = 1 ∧
    readU16le (audioBufferToWav ⟨1, 44100, 2, fun _ _ => 0⟩) 22 = 1 ∧
    readU32le (audioBufferToWav ⟨1, 44100, 2, fun _ _ => 0⟩) 24 = 44100 ∧
    readU16le (audioBufferToWav ⟨1, 44100, 2, fun _ _ => 0⟩) 34 = 16 ∧
    readU32le (audioBufferToWav ⟨1, 44100, 2, fun _ _ => 0⟩) 40 = 2 * 1 * 2 :=
  c6_audioBufferToWav_header ⟨1, 44100, 2, fun _ _ => 0⟩ (by decide) (by decide) (by decide)

/-- C10: the 16-bit integer written for any channel sample is the
truncated scaling of the clamped sample and always lies in
[-32768, 32767], so the signed 16-bit store never overflows. -/
theorem c10_sample_in_int16_range (x : ℚ) :
    -32768 ≤ sampleToInt16 x ∧ sampleToInt16 x ≤ 32767 := by
  have h1 : (-1 : ℚ) ≤ clamp1 x := le_max_left _ _
  have h2 : clamp1 x ≤ 1 := max_le (by norm_num) (min_le_left _ _)
  simp only [sampleToInt16, truncQ]
  by_cases hneg : clamp1 x < 0
  · rw [if_pos hneg]
    have hs1 : ((-32768 : ℤ) : ℚ) ≤ clamp1 x * 32768 := by push_cast; nlinarith
    have hs2 : clamp1 x * 32768 < 0 := by nlinarith
    rw [if_pos hs2]
    constructor
    · have hmono := Int.ceil_le_ceil hs1
      rwa [Int.ceil_intCast] at hmono
    · have hle : ⌈clamp1 x * 32768⌉ ≤ (0 : ℤ) := by
        rw [Int.ceil_le]
        push_cast
        linarith
      omega
  · rw [if_neg hneg]
    have hc0 : (0 : ℚ) ≤ clamp1 x := not_lt.1 hneg
    have hs1 : (0 : ℚ) ≤ clamp1 x * 32767 := mul_nonneg hc0 (by norm_num)
    have hs2 : clamp1 x * 32767 ≤ ((32767 : ℤ) : ℚ) := by push_cast; nlinarith
    rw [if_neg (not_lt.2 hs1)]
    constructor
    · have hf : (0 : ℤ) ≤ ⌊clamp1 x * 32767⌋ := Int.floor_nonneg.2 hs1
      omega
    · have hmono := Int.floor_le_floor hs2
      rwa [Int.floor_intCast] at hmono

/-! ## Claim C9 — base64 transport round trip -/

theorem b64inv_b64char : ∀ n, n < 64 → b64inv (b64char n) = n := by decide

theorem b64char_ne_61 : ∀ n, n < 64 → b64char n ≠ 61 := by decide

theorem atobList_four (c0 c1 c2 c3 : Nat) (t : List Nat) (h2 : c2 ≠ 61) (h3 : c3 ≠ 61) :
    atobList (c0 :: c1 :: c2 :: c3 :: t) =
      (b64inv c0 * 4 + b64inv c1 / 16) :: (b64inv c1 % 16 * 16 + b64inv c2 / 4) ::
        (b64inv c2 % 4 * 64 + b64inv c3) :: atobList t := by
  simp only [atobList]
  rw [if_neg h2, if_neg h3]

theorem atobList_pad2 (c0 c1 : Nat) :
    atobList (c0 :: c1 :: 61 :: 61 :: []) = [b64inv c0 * 4 + b64inv c1 / 16] := rfl

theorem atobList_pad1 (c0 c1 c2 : Nat) (h2 : c2 ≠ 61) :
    atobList (c0 :: c1 :: c2 :: 61 :: []) =
      [b64inv c0 * 4 + b64inv c1 / 16, b64inv c1 % 16 * 16 + b64inv c2 / 4] := by
  simp only [atobList]
  rw [if_neg h2, if_pos trivial]

theorem atobList_btoaList : ∀ l : List Nat, (∀ x ∈ l, x < 256) →
    atobList (btoaList l) = l
  | [], _ => rfl
  | [b0], h => by
    have hb0 : b0 < 256 := h b0 (by simp)
    simp only [btoaList]
    rw [atobList_pad2, b64inv_b64char _ (by omega), b64inv_b64char _ (by omega)]
    have hv : b0 / 4 * 4 + b0 % 4 * 16 / 16 = b0 := by omega
    rw [hv]
  | [b0, b1], h => by
    have hb0 : b0 < 256 := h b0 (by simp)
    have hb1 : b1 < 256 := h b1 (by simp)
    simp only [btoaList]
    rw [atobList_pad1 _ _ _ (b64char_ne_61 _ (by omega))]
    rw [b64inv_b64char _ (by omega), b64inv_b64char _ (by omega),
      b64inv_b64char _ (by omega)]
    have hv0 : b0 / 4 * 4 + (b0 % 4 * 16 + b1 / 16) / 16 = b0 := by omega
    have hv1 : (b0 % 4 * 16 + b1 / 16) % 16 * 16 + b1 % 16 * 4 / 4 = b1 := by omega
    rw [hv0, hv1]
  | b0 :: b1 :: b2 :: rest, h => by
    have hb0 : b0 < 256 := h b0 (by simp)
    have hb1 : b1 < 256 := h b1 (by simp)
    have hb2 : b2 < 256 := h b2 (by simp)
    have hrest : ∀ x ∈ rest, x < 256 := fun x hx => h x (by simp [hx])
    simp only [btoaList]
    rw [atobList_four _ _ _ _ _ (b64char_ne_61 _ (by omega)) (b64char_ne_61 _ (by omega))]
    rw [b64inv_b64char _ (by omega), b64inv_b64char _ (by omega),
      b64inv_b64char _ (by omega), b64inv_b64char _ (by omega)]
    have hv0 : b0 / 4 * 4 + (b0 % 4 * 16 + b1 / 16) / 16 = b0 := by omega
    have hv1 : (b0 % 4 * 16 + b1 / 16) % 16 * 16 + (b1 % 16 * 4 + b2 / 64) / 4 = b1 := by
      omega
    have hv2 : (b1 % 16 * 4 + b2 / 64) % 4 * 64 + b2 % 64 = b2 := by omega
    rw [hv0, hv1, hv2, atobList_btoaList rest hrest]

/-- C9: decoding the base64 encoding of any byte buffer returns the
buffer unchanged, so the base64 transport at the caller/engine boundary
is lossless. -/
theorem c9_base64_round_trip (b : List Nat) (h : ∀ x ∈ b, x < 256) :
    base64ToArrayBuffer (arrayBufferToBase64 b) = b := by
  simp only [arrayBufferToBase64, base64ToArrayBuffer]
  exact atobList_btoaList b h

/-- Witness for C9 on a concrete buffer covering all padding shapes
indirectly via a length not divisible by 3. -/
theorem c9_base64_round_trip_witness :
    base64ToArrayBuffer (arrayBufferToBase64 [0, 255, 7, 100]) = [0, 255, 7, 100] :=
  c9_base64_round_trip [0, 255, 7, 100] (by decide)

end Stegano
